import Mathlib

/-!
# Verification of the cl_games core against its specification

Shallow embedding of the Rust sources (src/point.rs, src/main.rs, src/pong.rs,
src/snake.rs, src/space_invaders.rs, src/tetris.rs) over exact rational
arithmetic, together with proofs and refutations of the frozen claims about
the natural-language specification.

Conventions:
* `f32` coordinates are modelled as `ℚ`; multiplication, division, negation
  and comparison used by the embedded code are exact in this range of values.
* `std::time::Duration` is modelled as `ℕ` nanoseconds (`Duration` arithmetic
  in the source never goes negative; `EnemyBehavior::delta` clamps at zero,
  which matches truncated subtraction on `ℕ`).
* randomness (`rand::thread_rng`) is modelled as an explicit stream
  `ℕ → ℚ` of draws in `[0, 1)` together with a cursor.
-/

/- ============================================================ -/
/- Geometry kernel: src/point.rs                                -/
/- ============================================================ -/

/-- A point; the source's `Point<Basis>` with `f32` coordinates modelled
over `ℚ`.  The phantom basis tag has no runtime content; conversions between
the two bases are the explicit functions below. -/
structure Point where
  x : ℚ
  y : ℚ
  deriving DecidableEq, Repr

namespace Point

/-- Componentwise addition (`impl Add for Point`). -/
def add (p q : Point) : Point := ⟨p.x + q.x, p.y + q.y⟩

/-- Componentwise subtraction (`impl Sub for Point`). -/
def sub (p q : Point) : Point := ⟨p.x - q.x, p.y - q.y⟩

/-- Scalar multiplication (`impl Mul<f32> for Point`). -/
def smul (p : Point) (k : ℚ) : Point := ⟨p.x * k, p.y * k⟩

/-- `Point::cross`. -/
def cross (p q : Point) : ℚ := p.x * q.y - p.y * q.x

/-- `Point::dot`. -/
def dot (p q : Point) : ℚ := p.x * q.x + p.y * q.y

/-- `Point::compare`: axis-aligned proximity test with explicit epsilon. -/
def compare (p q : Point) (eps : ℚ) : Bool :=
  decide (|p.x - q.x| < eps ∧ |p.y - q.y| < eps)

end Point

/-- `From<Point<GameBasis>> for Point<ScreenBasis>`: x doubled, y unchanged. -/
def gameToScreen (p : Point) : Point := ⟨p.x * 2, p.y⟩

/-- `From<Point<ScreenBasis>> for Point<GameBasis>`: x halved, y unchanged. -/
def screenToGame (p : Point) : Point := ⟨p.x / 2, p.y⟩

/-- `f32::EPSILON` = 2⁻²³. -/
def fEPSILON : ℚ := 1 / 2 ^ 23

/-- Rust `f32::round`: round half away from zero. -/
def rustRound (q : ℚ) : ℤ :=
  if q < 0 then -(Rat.floor ((1 / 2 : ℚ) - q)) else Rat.floor (q + 1 / 2)

/-- `BoundsCollision` from src/point.rs. -/
inductive BoundsCollision where
  | top
  | bottom
  | left
  | right
  deriving DecidableEq, Repr

/-- `Point::<ScreenBasis>::bounds_check`: first violated edge in the order
top, bottom, left, right; the x range is `[0, width - 2]` because glyphs are
two cells wide. -/
def boundsCheckScreen (p : Point) (w h : ℕ) : Option BoundsCollision :=
  if rustRound p.y < 0 then some .top
  else if (rustRound p.y : ℚ) > (h : ℚ) then some .bottom
  else if rustRound p.x < 0 then some .left
  else if (rustRound p.x : ℚ) > (w : ℚ) - 2 then some .right
  else none

/-- `Point::<GameBasis>::bounds_check`: convert to the screen basis first. -/
def boundsCheckGame (p : Point) (w h : ℕ) : Option BoundsCollision :=
  boundsCheckScreen (gameToScreen p) w h

/-- `Line<Basis>` from src/point.rs; the `end` field is called `endp`
because `end` is reserved in Lean. -/
structure Line where
  begin : Point
  endp : Point
  deriving DecidableEq, Repr

namespace Line

/-- The parametric cross-product solve at the heart of `Line::intersects`,
written on the components of the difference vectors
a = self.end - self.begin, b = other.end - other.begin,
c = other.begin - self.begin; near-parallel segments
(|det| < f32::EPSILON) are reported as non-intersecting. -/
def intersectsKernel (ax ay bx bY cx cy : ℚ) : Bool :=
  let det := ax * bY - ay * bx
  if |det| < fEPSILON then false
  else
    let t := (cx * bY - cy * bx) / det
    let u := (cx * ay - cy * ax) / det
    decide (0 ≤ t ∧ t ≤ 1) && decide (0 ≤ u ∧ u ≤ 1)

/-- `Line::intersects`. -/
def intersects (l m : Line) : Bool :=
  let a := l.endp.sub l.begin
  let b := m.endp.sub m.begin
  let c := m.begin.sub l.begin
  intersectsKernel a.x a.y b.x b.y c.x c.y

/-- `impl Add<Point> for Line`: translate both endpoints. -/
def addPoint (l : Line) (p : Point) : Line := ⟨l.begin.add p, l.endp.add p⟩

end Line

/- ============================================================ -/
/- Input channel: src/main.rs read_input                        -/
/- ============================================================ -/

/-- `Receiver::try_recv` on the input queue (oldest event first):
pop the front element if any. -/
def try_recv (q : List Char) : Option Char × List Char :=
  match q with
  | [] => (none, [])
  | k :: rest => (some k, rest)

/-- The `// Skip all other inputs` loop of `read_input`: keep calling
`try_recv` and discard every received event until the queue is empty. -/
def drainRest (q : List Char) : List Char :=
  match q with
  | [] => []
  | _ :: rest => drainRest rest

/-- `read_input` from src/main.rs: take one event from the queue, then
drain and discard everything still queued. -/
def read_input (q : List Char) : Option Char × List Char :=
  let r := try_recv q
  (r.1, drainRest r.2)

/-- The claim's reading of `read_input`, written from the spec's words:
drain the queue and keep only the most recently received event. -/
def read_input_spec_last_wins (q : List Char) : Option Char × List Char :=
  (q.getLast?, [])

/- ============================================================ -/
/- Shared game interface: src/game.rs                           -/
/- ============================================================ -/

/-- Modelled from the spec: the update result reported by every game
("a first-class terminal state reported through the update result");
the copy of game.rs under src/ is an older draft of the trait and does not
declare `UpdateEvent`, but every game source matches on its two variants. -/
inductive UpdateEvent where
  | gameOver
  | gameContinue
  deriving DecidableEq, Repr

/-- Modelled from the spec: `MORE_THAN_HALF_CELL` lives in util.rs, which is
absent from src/; the spec calls the proximity threshold a half-cell radius
and the constant's name says it is slightly more than half a cell, so we
take 3/5.  No claim's verdict depends on the exact value. -/
def MORE_THAN_HALF_CELL : ℚ := 3 / 5

/- ============================================================ -/
/- Pong: src/pong.rs                                            -/
/- ============================================================ -/

namespace Pong

/-- Pong key events relevant to `PongGame::update`; `esc` is `EXIT_BUTTON`
(modelled from the spec: "escape (quit, Pong only)", the constant itself
being declared in the full game.rs absent from src/). -/
inductive Key where
  | left
  | right
  | esc
  | other
  deriving DecidableEq, Repr

/-- mod planks constants from src/pong.rs. -/
def FROM_BOUNDS_INDENT : ℕ := 5

def DEFAULT_LENGTH : ℕ := 5

def PLAYER_SPEED : ℚ := 2

def ENEMY_SPEED : ℚ := 25

def COLLISION_EXTRA_LENGTH : ℚ := 1

/-- mod ball constants from src/pong.rs. -/
def MAX_INITIAL_SPEED : Point := ⟨10, 10⟩

def MIN_INITIAL_SPEED : Point := ⟨5, 5⟩

def VELOCITY_X_SCALE : ℚ := 3

def VELOCITY_Y_SCALE : ℚ := 11 / 10

/-- `Plank`: position in game space plus a fixed length. -/
structure Plank where
  position : Point
  length : ℕ
  deriving DecidableEq, Repr

/-- `Plank::new`. -/
def Plank.new (w y : ℕ) : Plank :=
  ⟨⟨(w : ℚ) / 2 / 2, (y : ℚ)⟩, DEFAULT_LENGTH⟩

/-- `Plank::bounds_check`: the plank (at `next` if given, else at its own
position) must lie strictly within the play width `w / 2`. -/
def Plank.boundsCheck (p : Plank) (w : ℕ) (next : Option Point) : Bool :=
  let pos := next.getD p.position
  decide (pos.x - (p.length : ℚ) / 2 > 0 ∧
    pos.x + (p.length : ℚ) / 2 < (w : ℚ) / 2)

/-- `Ball`. -/
structure Ball where
  position : Point
  velocity : Point
  deriving DecidableEq, Repr

/-- Rust `f32::signum`: 1 for non-negative (including zero), -1 otherwise. -/
def fSignum (q : ℚ) : ℚ := if q < 0 then -1 else 1

/-- Truncation toward zero, the rounding of Rust's float `%`. -/
def ratTrunc (q : ℚ) : ℤ := if q < 0 then ⌈q⌉ else ⌊q⌋

/-- Rust float `%`: remainder of truncated division. -/
def fmodTrunc (a b : ℚ) : ℚ := a - b * (ratTrunc (a / b) : ℚ)

/-- `Ball::new`: random initial velocity (two raw i32 draws, reduced modulo
the maximum speed), clamped away from zero component-wise, positioned at the
screen centre converted to game space. -/
def Ball.new (w h : ℕ) (r1 r2 : ℤ) : Ball :=
  let vx0 := fmodTrunc (r1 : ℚ) MAX_INITIAL_SPEED.x
  let vy0 := fmodTrunc (r2 : ℚ) MAX_INITIAL_SPEED.y
  let vy := if |vy0| < MIN_INITIAL_SPEED.y then MIN_INITIAL_SPEED.y * fSignum vy0 else vy0
  let vx := if |vx0| < MIN_INITIAL_SPEED.x then MIN_INITIAL_SPEED.x * fSignum vx0 else vx0
  { position := screenToGame ⟨(w : ℚ) / 2, (h : ℚ) / 2⟩
    velocity := ⟨vx, vy⟩ }

/-- `collides`: swept check of the ball's path segment against the plank
extended by `COLLISION_EXTRA_LENGTH` on both sides. -/
def collides (plankPos : Point) (plankLength : ℚ) (prevBallPos ballPos : Point) : Bool :=
  let plank : Line :=
    ⟨⟨plankPos.x - plankLength / 2 - COLLISION_EXTRA_LENGTH, plankPos.y⟩,
     ⟨plankPos.x + plankLength / 2 + COLLISION_EXTRA_LENGTH, plankPos.y⟩⟩
  let ball : Line := ⟨prevBallPos, ballPos⟩
  plank.intersects ball

/-- Which side the ball left the board on (local enum of `update`). -/
inductive OutOfBoard where
  | onEnemySide
  | onPlayerSide
  deriving DecidableEq, Repr

/-- `PongGame`. -/
structure PongGame where
  enemy : Plank
  player : Plank
  ball : Ball
  score : ℤ
  deriving DecidableEq, Repr

/-- The ball's proposed position: previous position advanced by velocity
times delta time (Euler step). -/
def ballProposed (b : Ball) (dt : ℚ) : Point :=
  ⟨b.position.x + b.velocity.x * dt, b.position.y + b.velocity.y * dt⟩

/-- The player-plank block of `PongGame::update`: move by `PLAYER_SPEED`
toward the pressed direction, then restore the previous position if the
result leaves the play width. -/
def playerPhase (player : Plank) (input : Option Key) (w : ℕ) : Plank :=
  let moved : Plank :=
    match input with
    | some .left => { player with position := ⟨player.position.x - PLAYER_SPEED, player.position.y⟩ }
    | some .right => { player with position := ⟨player.position.x + PLAYER_SPEED, player.position.y⟩ }
    | _ => player
  if moved.boundsCheck w none then moved else { moved with position := player.position }

/-- The enemy-plank block of `PongGame::update`: chase the ball's current x
at `ENEMY_SPEED` scaled by delta time, with the same bounds restore. -/
def enemyPhase (enemy : Plank) (ballX : ℚ) (dt : ℚ) (w : ℕ) : Plank :=
  let moved : Plank :=
    if ballX < enemy.position.x then
      { enemy with position := ⟨enemy.position.x - ENEMY_SPEED * dt, enemy.position.y⟩ }
    else if ballX > enemy.position.x then
      { enemy with position := ⟨enemy.position.x + ENEMY_SPEED * dt, enemy.position.y⟩ }
    else enemy
  if moved.boundsCheck w none then moved else { moved with position := enemy.position }

/-- The ball block of `PongGame::update` (lines 198-248): Euler step, bounds
handling (left/right flip x-velocity and restore x; top/bottom record an
out-of-board side), swept plank collision against the plank the ball is
heading toward, then re-apply the (possibly updated) velocity from the
previous position. -/
def ballBlock (ball : Ball) (enemy player : Plank) (dt : ℚ) (w h : ℕ) :
    Ball × Option OutOfBoard :=
  let prev := ball.position
  let moved := ballProposed ball dt
  let step1 : Point × Point × Option OutOfBoard :=
    match boundsCheckGame moved w h with
    | some .left => (⟨prev.x, moved.y⟩, ⟨-ball.velocity.x, ball.velocity.y⟩, none)
    | some .right => (⟨prev.x, moved.y⟩, ⟨-ball.velocity.x, ball.velocity.y⟩, none)
    | some .top => (moved, ball.velocity, some .onEnemySide)
    | some .bottom => (moved, ball.velocity, some .onPlayerSide)
    | none => (moved, ball.velocity, none)
  let pos1 := step1.1
  let vel1 := step1.2.1
  let oob := step1.2.2
  let plank := if vel1.y < 0 then enemy else player
  let vel2 : Point :=
    if collides plank.position (plank.length : ℚ) prev pos1 then
      ⟨vel1.x + (pos1.x - plank.position.x) * VELOCITY_X_SCALE,
       -vel1.y * VELOCITY_Y_SCALE⟩
    else vel1
  let finalPos : Point := ⟨prev.x + vel2.x * dt, prev.y + vel2.y * dt⟩
  (⟨finalPos, vel2⟩, oob)

/-- `PongGame::reset_positions`: only the ball is rebuilt; the plank resets
are commented out in the source. -/
def resetPositions (g : PongGame) (w h : ℕ) (r1 r2 : ℤ) : PongGame :=
  { g with ball := Ball.new w h r1 r2 }

/-- `PongGame::update`: quit on the exit key, move the planks, run the ball
block, then settle scoring when the ball left the board. -/
def update (g : PongGame) (input : Option Key) (dt : ℚ) (w h : ℕ) (r1 r2 : ℤ) :
    PongGame × UpdateEvent :=
  if input = some Key.esc then (g, .gameOver)
  else
    let player := playerPhase g.player input w
    let enemy := enemyPhase g.enemy g.ball.position.x dt w
    let (ball, oob) := ballBlock g.ball enemy player dt w h
    let g1 : PongGame := { enemy := enemy, player := player, ball := ball, score := g.score }
    let g2 : PongGame :=
      match oob with
      | some .onEnemySide => resetPositions { g1 with score := g1.score + 1 } w h r1 r2
      | some .onPlayerSide => resetPositions { g1 with score := g1.score - 1 } w h r1 r2
      | none => g1
    (g2, .gameContinue)

end Pong

/- ============================================================ -/
/- Snake: src/snake.rs                                          -/
/- ============================================================ -/

namespace Snake

/-- mod snakes constants. -/
def SPEED : ℚ := 12

def WIDTH : ℚ := 1 / 4

/-- `Input`: the four direction flags. -/
structure Input where
  up : Bool
  down : Bool
  left : Bool
  right : Bool
  deriving DecidableEq, Repr

/-- `Input::empty`. -/
def Input.empty (i : Input) : Bool := !i.up && !i.down && !i.left && !i.right

/-- `Input::as_vec`: accumulate the pressed directions into a vector of the
given length per axis. -/
def Input.asVec (i : Input) (length : ℚ) : Point :=
  let v : Point := ⟨0, 0⟩
  let v : Point := if i.up then ⟨v.x, v.y - length⟩ else v
  let v : Point := if i.down then ⟨v.x, v.y + length⟩ else v
  let v : Point := if i.left then ⟨v.x - length, v.y⟩ else v
  let v : Point := if i.right then ⟨v.x + length, v.y⟩ else v
  v

/-- `Snake::head`: the last segment; the source unwraps (the body is never
empty), modelled with a degenerate default. -/
def head (segs : List Line) : Line := (segs.getLast?).getD ⟨⟨0, 0⟩, ⟨0, 0⟩⟩

/-- The direction filter of `SnakeGame::update`: the raw input is accepted
when non-empty and not exactly opposite the previous direction; otherwise
the previous non-empty input is kept. -/
def acceptedInput (raw prev : Input) : Input :=
  if !(raw.empty) &&
      (raw.up && !prev.down || raw.down && !prev.up ||
       raw.left && !prev.right || raw.right && !prev.left) then
    raw
  else prev

/-- The "Growth head" match of `SnakeGame::update` (src/snake.rs lines
281-312): on an accepted direction change a new head segment is appended;
its begin point is moved to the opposite edge when the new head end violates
the screen bounds (the snake wraps); otherwise the head segment is extended
in place.  `w`, `h` is the terminal size in character cells; the game-space
screen size used for the wrap points is (w/2, h). -/
def growHead (segs : List Line) (input : Input) (dist : ℚ) (w h : ℕ)
    (prev : Input) : List Line :=
  let screenSize : Point := ⟨(w : ℚ) / 2, (h : ℚ)⟩
  let hEnd := (head segs).endp
  if input ≠ prev then
    let newHeadEnd := (input.asVec dist).add hEnd
    match boundsCheckGame newHeadEnd w h with
    | none => segs ++ [⟨hEnd, newHeadEnd⟩]
    | some .bottom =>
      segs ++ [⟨⟨hEnd.x, 0⟩, Point.add ⟨hEnd.x, 0⟩ newHeadEnd⟩]
    | some .top =>
      segs ++ [⟨⟨hEnd.x, screenSize.y⟩, Point.add ⟨hEnd.x, screenSize.y⟩ newHeadEnd⟩]
    | some .left =>
      segs ++ [⟨⟨0, hEnd.y⟩, Point.add ⟨0, hEnd.y⟩ newHeadEnd⟩]
    | some .right =>
      segs ++ [⟨⟨screenSize.x, hEnd.y⟩, Point.add ⟨screenSize.x, hEnd.y⟩ newHeadEnd⟩]
  else
    segs.dropLast ++ [⟨(head segs).begin, (head segs).endp.add (input.asVec dist)⟩]

end Snake

/- ============================================================ -/
/- Tetris: src/tetris.rs (line-clear scoring block)             -/
/- ============================================================ -/

namespace Tetris

def HEIGHT : ℕ := 20

def WIDTH : ℕ := 10

/-- `LOSE_LINE.round() as usize` = 1, the scan's lower bound. -/
def LOSE_LINE_ROUNDED : ℕ := 1

/-- The board rows as occupancy flags: `Option<Color>` cells are modelled as
`Bool` because only `is_some` affects the update logic. -/
abbrev Board : Type := List (List Bool)

/-- `TetrisGame::is_line_ready`: every cell of the row is occupied. -/
def is_line_ready (board : Board) (rowNum : ℕ) : Bool :=
  (List.getD board rowNum []).all (fun c => c)

/-- The `while is_line_ready(curr_base_line - lines_in_row)` count: number of
consecutive full rows at `base` going upward.  (For a board whose full rows
reach row 0 the source would underflow the index and panic; the count stops
at row 0 here, which no claim exercises.) -/
def linesInRow (board : Board) : ℕ → ℕ
  | 0 => if is_line_ready board 0 then 1 else 0
  | base + 1 =>
    if is_line_ready board (base + 1) then 1 + linesInRow board base else 0

/-- The group's score award and the new back-to-back flag
(`is_tetris_was_last`), exactly the tier expression of the source: 4+ rows
score 300 each when the previous clear was also 4+, otherwise 200 each and
the flag is set; 1-3 rows score 100 each and clear the flag. -/
def tierScore (linesInRow : ℕ) (isTetrisWasLast : Bool) : ℕ × Bool :=
  if linesInRow ≥ 4 then
    if isTetrisWasLast then (300 * linesInRow, true)
    else (200 * linesInRow, true)
  else (100 * linesInRow, false)

/-- The row shift after a clear: rows `n ..= base` receive the row `n`
positions above; rows above `n` and below `base` keep their old content. -/
def shiftDown (board : Board) (base n : ℕ) : Board :=
  (List.range board.length).map (fun i =>
    if n ≤ i ∧ i ≤ base then List.getD board (i - n) []
    else List.getD board i [])

/-- The `while curr_base_line > 1` scan of `TetrisGame::update` (src/tetris.rs
lines 380-416): walk base lines from the bottom; on a full row, count the
group, add the tiered award, update the back-to-back flag and shift the rows
above down by the group size, then continue at the next base line. -/
def clearLoop : ℕ → Board → ℕ → Bool → Board × ℕ × Bool
  | 0, board, score, flag => (board, score, flag)
  | 1, board, score, flag => (board, score, flag)
  | c + 2, board, score, flag =>
    if is_line_ready board (c + 2) then
      let n := linesInRow board (c + 2)
      let t := tierScore n flag
      clearLoop (c + 1) (shiftDown board (c + 2) n) (score + t.1) t.2
    else clearLoop (c + 1) board score flag

/-- The full "Check for cleared lines" block: scan from row HEIGHT - 1. -/
def clearLines (board : Board) (score : ℕ) (isTetrisWasLast : Bool) :
    Board × ℕ × Bool :=
  clearLoop (HEIGHT - 1) board score isTetrisWasLast

/-- A fully occupied row. -/
def fullRow : List Bool := List.replicate WIDTH true

/-- An empty row. -/
def emptyRow : List Bool := List.replicate WIDTH false

/-- A board whose bottom four rows are full and all others empty. -/
def fourBottomRowsBoard : Board :=
  List.replicate 16 emptyRow ++ List.replicate 4 fullRow

/-- The all-empty board. -/
def emptyBoard : Board := List.replicate HEIGHT emptyRow

end Tetris

/- ============================================================ -/
/- Space Invaders: src/space_invaders.rs                        -/
/- ============================================================ -/

namespace SpaceInvaders

def FOR_ENEMY_SCORE : ℕ := 1

def FOR_PROP_SCORE : ℕ := 0

def FIRE_BULLET_OFFSET : ℚ := 1

def PLAYER_SPEED : ℚ := 1

/-- 500 ms in nanoseconds. -/
def PLAYER_FIRE_RATE : ℕ := 500000000

/-- 100 ms in nanoseconds. -/
def GAME_UPDATE_INTERVAL : ℕ := 100000000

/-- `is_success`: the random draw `r ∈ [0, 1)` is below chance / 100. -/
def is_success (r chance : ℚ) : Bool := decide (r < chance / 100)

/-- `Direction`. -/
inductive Direction where
  | up
  | down
  | left
  | right
  deriving DecidableEq, Repr

/-- `Bullet`. -/
structure Bullet where
  move_direction : Direction
  position : Point
  speed : ℚ
  deriving DecidableEq, Repr

/-- `EnemyActionType`. -/
inductive EnemyActionType where
  | move : Direction → ℚ → EnemyActionType
  | fire : Direction → ℚ → EnemyActionType
  | wait : EnemyActionType
  deriving DecidableEq, Repr

/-- `EnemyAction`; duration in nanoseconds, chance in percent. -/
structure EnemyAction where
  action_type : EnemyActionType
  duration : ℕ
  chance : ℚ
  deriving DecidableEq, Repr

instance : Inhabited EnemyAction := ⟨⟨.wait, 0, 0⟩⟩

/-- `EnemyBehavior`: cyclic action list, countdown, current index. -/
structure EnemyBehavior where
  actions : List EnemyAction
  to_next_move : ℕ
  current_action : ℕ
  deriving DecidableEq, Repr

/-- `EnemyBehavior::next_action`: advance cyclically. -/
def EnemyBehavior.next_action (b : EnemyBehavior) : EnemyBehavior :=
  let c := b.current_action + 1
  { b with current_action := if c ≥ b.actions.length then 0 else c }

/-- `EnemyBehavior::delta`: tick the countdown down, clamped at zero. -/
def EnemyBehavior.delta (b : EnemyBehavior) (dt : ℕ) : EnemyBehavior :=
  { b with to_next_move := b.to_next_move - dt }

/-- `Enemy`. -/
structure Enemy where
  position : Point
  behavior : EnemyBehavior
  deriving DecidableEq, Repr

/-- `Prop` (named `Prop'` because `Prop` is reserved in Lean). -/
structure Prop' where
  position : Point
  destroyable : Bool
  deriving DecidableEq, Repr

/-- `Player`. -/
structure Player where
  position : Point
  deriving DecidableEq, Repr

/-- `SpaceInvadersGame`; durations in nanoseconds. -/
structure SpaceInvadersGame where
  score : ℕ
  bullets : List Bullet
  enemies : List Enemy
  props : List Prop'
  player : Player
  from_last_update : ℕ
  from_last_fire : ℕ
  deriving DecidableEq, Repr

/-- Space Invaders key events relevant to `update`. -/
inductive Key where
  | left
  | right
  | space
  | q
  | other
  deriving DecidableEq, Repr

/-- Physical execution of one action attempt from the enemy loop: a move
requires the destination to be in bounds and unoccupied by any snapshot
enemy, any prop, or the player (compared within `MORE_THAN_HALF_CELL`); a
fire always succeeds and pushes a bullet one cell below the enemy; a wait
always succeeds.  Returns the new position, the bullet list, and whether
the action executed. -/
def applyAction (action : EnemyAction) (pos : Point)
    (snapshot : List Enemy) (props : List Prop') (player : Player)
    (bullets : List Bullet) (w h : ℕ) : Point × List Bullet × Bool :=
  match action.action_type with
  | .move dir speed =>
    let nextPosition : Point :=
      match dir with
      | .up => ⟨pos.x, pos.y - speed⟩
      | .down => ⟨pos.x, pos.y + speed⟩
      | .left => ⟨pos.x - speed, pos.y⟩
      | .right => ⟨pos.x + speed, pos.y⟩
    if (boundsCheckGame nextPosition w h).isNone &&
        snapshot.all
          (fun o => !(o.position.compare nextPosition MORE_THAN_HALF_CELL)) &&
        props.all
          (fun pr => !(pr.position.compare nextPosition MORE_THAN_HALF_CELL)) &&
        !(player.position.compare nextPosition MORE_THAN_HALF_CELL) then
      (nextPosition, bullets, true)
    else (pos, bullets, false)
  | .fire dir speed =>
    (pos, bullets ++ [⟨dir, ⟨pos.x, pos.y + FIRE_BULLET_OFFSET⟩, speed⟩], true)
  | .wait => (pos, bullets, true)

/-- The labelled do-while loop of the enemy movement block (src/
space_invaders.rs lines 424-499).  `action` is the action fetched ONCE
before the loop (the source hoists `current_action()` out of the loop, so
every trial of the cycle re-tests this same action); each iteration draws
one random number; on a successful and executable trial the action's
duration is added to the countdown and the pointer advances once more; on
failure the pointer advances and the loop stops when it returns to the
start index.  Returns position, behavior, bullets, and the rng cursor. -/
def trialLoop (action : EnemyAction) (startInd : ℕ) :
    ℕ → Point → EnemyBehavior → List Bullet → List Enemy → List Prop' →
    Player → ℕ → ℕ → (ℕ → ℚ) → ℕ →
    Point × EnemyBehavior × List Bullet × ℕ
  | 0, pos, behavior, bullets, _, _, _, _, _, _, ri =>
    (pos, behavior, bullets, ri)
  | fuel + 1, pos, behavior, bullets, snapshot, props, player, w, h, rng, ri =>
    if is_success (rng ri) action.chance then
      let r := applyAction action pos snapshot props player bullets w h
      if r.2.2 then
        (r.1,
         EnemyBehavior.next_action
           { behavior with to_next_move := behavior.to_next_move + action.duration },
         r.2.1, ri + 1)
      else
        let b' := behavior.next_action
        if b'.current_action = startInd then (r.1, b', r.2.1, ri + 1)
        else trialLoop action startInd fuel r.1 b' r.2.1 snapshot props player w h rng (ri + 1)
    else
      let b' := behavior.next_action
      if b'.current_action = startInd then (pos, b', bullets, ri + 1)
      else trialLoop action startInd fuel pos b' bullets snapshot props player w h rng (ri + 1)

/-- One enemy's turn of the enemy movement block: when its countdown has
reached zero, run the trial loop with the action at the current index
(the source indexes `actions[current_action]`, which always exists) and
fuel `actions.length` (the loop stops at the latest when the pointer has
wrapped to its start). -/
def enemyTurn (e : Enemy) (snapshot : List Enemy) (props : List Prop')
    (player : Player) (bullets : List Bullet) (w h : ℕ) (rng : ℕ → ℚ)
    (ri : ℕ) : Enemy × List Bullet × ℕ :=
  if e.behavior.to_next_move = 0 then
    let action := e.behavior.actions.getD e.behavior.current_action default
    let r := trialLoop action e.behavior.current_action
      e.behavior.actions.length e.position e.behavior bullets snapshot props
      player w h rng ri
    (⟨r.1, r.2.1⟩, r.2.2.1, r.2.2.2)
  else (e, bullets, ri)

/-- The enemy movement block: each enemy of the cloned list takes its turn
in order; executability is checked against the frozen snapshot (the
original `self.enemies`), while fired bullets and random draws thread
through sequentially. -/
def enemiesPhase (enemies : List Enemy) (props : List Prop') (player : Player)
    (bullets0 : List Bullet) (w h : ℕ) (rng : ℕ → ℚ) (ri0 : ℕ) :
    List Enemy × List Bullet × ℕ :=
  enemies.foldl
    (fun acc e =>
      let r := enemyTurn e enemies props player acc.2.1 w h rng acc.2.2
      (acc.1 ++ [r.1], r.2.1, r.2.2))
    ([], bullets0, ri0)

/-- Bullet movement: fixed per-tick displacement along the move axis. -/
def moveBullet (b : Bullet) : Bullet :=
  { b with
    position :=
      match b.move_direction with
      | .up => ⟨b.position.x, b.position.y - b.speed⟩
      | .down => ⟨b.position.x, b.position.y + b.speed⟩
      | .left => ⟨b.position.x - b.speed, b.position.y⟩
      | .right => ⟨b.position.x + b.speed, b.position.y⟩ }

/-- The bullets movement block: move every bullet, then discard the ones
out of bounds. -/
def bulletsPhase (bullets : List Bullet) (w h : ℕ) : List Bullet :=
  (bullets.map moveBullet).filter
    (fun b => (boundsCheckGame b.position w h).isNone)

/-- The per-bullet enemy loop of the collision block: walk the enemy flags
in order, marking every not-yet-collided enemy within the proximity radius
of the bullet (the source never breaks out of this loop, so one bullet can
mark several enemies); returns the updated flags, whether the bullet was
marked, and the score gained. -/
def enemyLoop (bpos : Point) : List Enemy → List Bool → List Bool × Bool × ℕ
  | [], _ => ([], false, 0)
  | _ :: _, [] => ([], false, 0)
  | e :: es, f :: fs =>
    if f then
      let r := enemyLoop bpos es fs
      (f :: r.1, r.2.1, r.2.2)
    else if bpos.compare e.position MORE_THAN_HALF_CELL then
      let r := enemyLoop bpos es fs
      (true :: r.1, true, r.2.2 + FOR_ENEMY_SCORE)
    else
      let r := enemyLoop bpos es fs
      (f :: r.1, r.2.1, r.2.2)

/-- The per-bullet prop loop of the collision block: runs regardless of
whether the bullet already hit an enemy; a destroyable victim adds
`FOR_PROP_SCORE`. -/
def propLoop (bpos : Point) : List Prop' → List Bool → List Bool × Bool × ℕ
  | [], _ => ([], false, 0)
  | _ :: _, [] => ([], false, 0)
  | p :: ps, f :: fs =>
    if f then
      let r := propLoop bpos ps fs
      (f :: r.1, r.2.1, r.2.2)
    else if bpos.compare p.position MORE_THAN_HALF_CELL then
      let r := propLoop bpos ps fs
      (true :: r.1, true, r.2.2 + (if p.destroyable then FOR_PROP_SCORE else 0))
    else
      let r := propLoop bpos ps fs
      (f :: r.1, r.2.1, r.2.2)

/-- The outer collision loop: one bullet at a time against the enemies,
then the props.  (The source's `if *is_bullet_collided { continue; }` guard
can never fire: each bullet's flag starts false and is only written during
its own iteration.)  Returns the bullet flags, final enemy and prop flags,
and the score gained. -/
def bulletsLoop (enemies : List Enemy) (props : List Prop') :
    List Bullet → List Bool → List Bool →
    List Bool × List Bool × List Bool × ℕ
  | [], eflags, pflags => ([], eflags, pflags, 0)
  | b :: bs, eflags, pflags =>
    let re := enemyLoop b.position enemies eflags
    let rp := propLoop b.position props pflags
    let rest := bulletsLoop enemies props bs re.1 rp.1
    ((re.2.1 || rp.2.1) :: rest.1, rest.2.1, rest.2.2.1,
      re.2.2 + rp.2.2 + rest.2.2.2)

/-- Keep the elements whose parallel flag is false. -/
def retainUnflagged {α : Type} (xs : List α) (flags : List Bool) : List α :=
  (xs.zip flags).filterMap (fun p => if p.2 then none else some p.1)

/-- The whole collision-resolution block (src/space_invaders.rs lines
537-610): compute the three flag vectors, then retain the unflagged
bullets and enemies; a flagged prop survives when it is not destroyable. -/
def resolveCollisions (bullets : List Bullet) (enemies : List Enemy)
    (props : List Prop') (score : ℕ) :
    List Bullet × List Enemy × List Prop' × ℕ :=
  let r := bulletsLoop enemies props bullets
    (List.replicate enemies.length false) (List.replicate props.length false)
  (retainUnflagged bullets r.1,
   retainUnflagged enemies r.2.1,
   (props.zip r.2.2.1).filterMap
     (fun p => if !p.2 || !p.1.destroyable then some p.1 else none),
   score + r.2.2.2)

/-- The player movement / fire block: arrows move by `PLAYER_SPEED` when
the destination is in bounds and unoccupied by a prop or an enemy; space
fires a bullet one cell above when the fire cooldown has elapsed.  Returns
player, bullets, and fire cooldown. -/
def playerPhase (player : Player) (bullets : List Bullet)
    (enemies : List Enemy) (props : List Prop') (input : Option Key)
    (from_last_fire : ℕ) (w h : ℕ) : Player × List Bullet × ℕ :=
  match input with
  | some .left =>
    let nextPosition : Point := ⟨player.position.x - PLAYER_SPEED, player.position.y⟩
    if (boundsCheckGame nextPosition w h).isNone &&
        props.all (fun pr => !(pr.position.compare nextPosition MORE_THAN_HALF_CELL)) &&
        enemies.all (fun e => !(e.position.compare nextPosition MORE_THAN_HALF_CELL)) then
      (⟨nextPosition⟩, bullets, from_last_fire)
    else (player, bullets, from_last_fire)
  | some .right =>
    let nextPosition : Point := ⟨player.position.x + PLAYER_SPEED, player.position.y⟩
    if (boundsCheckGame nextPosition w h).isNone &&
        props.all (fun pr => !(pr.position.compare nextPosition MORE_THAN_HALF_CELL)) &&
        enemies.all (fun e => !(e.position.compare nextPosition MORE_THAN_HALF_CELL)) then
      (⟨nextPosition⟩, bullets, from_last_fire)
    else (player, bullets, from_last_fire)
  | some .space =>
    if from_last_fire > PLAYER_FIRE_RATE then
      (player,
       bullets ++ [⟨.up, ⟨player.position.x, player.position.y - 1⟩, 1⟩], 0)
    else (player, bullets, from_last_fire)
  | _ => (player, bullets, from_last_fire)

/-- `SpaceInvadersGame::update`: accumulate the frame time, tick the enemy
countdowns and the fire cooldown, move the player, test the player against
the (pre-movement) bullets, then — only when the accumulated frame time has
exceeded `GAME_UPDATE_INTERVAL` — run the enemy turns, move the bullets and
resolve collisions; finally report game over when the player was hit, the
quit key was pressed, or no enemy remains. -/
def update (g : SpaceInvadersGame) (input : Option Key) (dt : ℕ) (w h : ℕ)
    (rng : ℕ → ℚ) (ri : ℕ) : SpaceInvadersGame × UpdateEvent :=
  let from_last_update := g.from_last_update + dt
  let quit_requested := input = some Key.q
  let enemies := g.enemies.map (fun e => { e with behavior := e.behavior.delta dt })
  let pp := playerPhase g.player g.bullets enemies g.props input
    (g.from_last_fire + dt) w h
  let player := pp.1
  let bullets := pp.2.1
  let from_last_fire := pp.2.2
  let is_player_collided :=
    bullets.any (fun b => player.position.compare b.position MORE_THAN_HALF_CELL)
  let ticked :=
    if from_last_update > GAME_UPDATE_INTERVAL then
      let ep := enemiesPhase enemies g.props player bullets w h rng ri
      let movedBullets := bulletsPhase ep.2.1 w h
      let rc := resolveCollisions movedBullets ep.1 g.props g.score
      (⟨rc.2.2.2, rc.1, rc.2.1, rc.2.2.1, player, 0, from_last_fire⟩ :
        SpaceInvadersGame)
    else
      ⟨g.score, bullets, enemies, g.props, player, from_last_update,
        from_last_fire⟩
  (ticked,
   if is_player_collided || quit_requested || ticked.enemies.isEmpty then
     .gameOver
   else .gameContinue)

/-- The specification's reading of the enemy trial loop, written from the
spec's words: starting from the current action index, each action of the
list is Bernoulli-trialled IN TURN; the first action whose trial succeeds
and which is physically executable is applied, its duration is added to the
countdown, and the pointer advances past it; after a full failed cycle the
pointer is back at its start and nothing happens.  Differs from `trialLoop`
in re-fetching the action at the advancing pointer each iteration. -/
def trialLoopSpec (actions : List EnemyAction) (startInd : ℕ) :
    ℕ → ℕ → Point → ℕ → List Bullet → List Enemy → List Prop' →
    Player → ℕ → ℕ → (ℕ → ℚ) → ℕ →
    Point × ℕ × ℕ × List Bullet × ℕ
  | 0, ind, pos, toNext, bullets, _, _, _, _, _, _, ri =>
    (pos, ind, toNext, bullets, ri)
  | fuel + 1, ind, pos, toNext, bullets, snapshot, props, player, w, h, rng, ri =>
    let action := actions.getD ind default
    let nextInd := if ind + 1 ≥ actions.length then 0 else ind + 1
    if is_success (rng ri) action.chance then
      let r := applyAction action pos snapshot props player bullets w h
      if r.2.2 then
        (r.1, nextInd, toNext + action.duration, r.2.1, ri + 1)
      else if nextInd = startInd then (r.1, nextInd, toNext, r.2.1, ri + 1)
      else trialLoopSpec actions startInd fuel nextInd r.1 toNext r.2.1
        snapshot props player w h rng (ri + 1)
    else if nextInd = startInd then (pos, nextInd, toNext, bullets, ri + 1)
    else trialLoopSpec actions startInd fuel nextInd pos toNext bullets
      snapshot props player w h rng (ri + 1)

end SpaceInvaders

/- ============================================================ -/
/- Theorems: C6, C8, C2                                         -/
/- ============================================================ -/

/-- C6: for every point in either basis, converting to the other basis
(Game→Screen: x *= 2; Screen→Game: x /= 2; y unchanged) and back yields
the original point — here even exactly, which implies equality within any
floating-point tolerance. -/
theorem c6_basis_round_trip (p : Point) :
    screenToGame (gameToScreen p) = p ∧ gameToScreen (screenToGame p) = p := by
  cases p with
  | mk x y =>
    constructor <;>
      · simp only [screenToGame, gameToScreen, Point.mk.injEq]
        constructor
        · ring
        · trivial

/-- Swapping the roles of the two segments negates the determinant and the
offset vector and exchanges the two parameters of the cross-product solve. -/
theorem intersectsKernel_symm (ax ay bx bY cx cy : ℚ) :
    Line.intersectsKernel ax ay bx bY cx cy =
      Line.intersectsKernel bx bY ax ay (-cx) (-cy) := by
  simp only [Line.intersectsKernel]
  have hdet : bx * ay - bY * ax = -(ax * bY - ay * bx) := by ring
  rw [hdet, abs_neg]
  split_ifs with h
  · rfl
  · have h1 : (-cx * ay - -cy * ax) / -(ax * bY - ay * bx) =
        (cx * ay - cy * ax) / (ax * bY - ay * bx) := by
      rw [div_neg]
      ring
    have h2 : (-cx * bY - -cy * bx) / -(ax * bY - ay * bx) =
        (cx * bY - cy * bx) / (ax * bY - ay * bx) := by
      rw [div_neg]
      ring
    rw [h1, h2, Bool.and_comm]

/-- C8: segment-segment intersection is symmetric:
`intersects a b = intersects b a` for all pairs of segments. -/
theorem c8_intersects_symm (l m : Line) :
    Line.intersects l m = Line.intersects m l := by
  have h := intersectsKernel_symm (l.endp.x - l.begin.x) (l.endp.y - l.begin.y)
    (m.endp.x - m.begin.x) (m.endp.y - m.begin.y)
    (m.begin.x - l.begin.x) (m.begin.y - l.begin.y)
  rw [neg_sub, neg_sub] at h
  exact h

/-- The out-of-board side reported by the ball block is decided by the
bounds check of the proposed position alone. -/
theorem ballBlock_oob (b : Pong.Ball) (e p : Pong.Plank) (dt : ℚ) (w h : ℕ) :
    (Pong.ballBlock b e p dt w h).2 =
      match boundsCheckGame (Pong.ballProposed b dt) w h with
      | some .top => some Pong.OutOfBoard.onEnemySide
      | some .bottom => some Pong.OutOfBoard.onPlayerSide
      | _ => none := by
  simp only [Pong.ballBlock]
  cases hb : boundsCheckGame (Pong.ballProposed b dt) w h with
  | none => rfl
  | some c => cases c <;> rfl

/-- C4 counterexample: ball at (1, 5) with velocity (-2, 0), dt = 1 on a
20×20 screen proposes (-1, 5), a left-wall violation; the x-velocity flips,
but the frame's final position is (3, 5), not the pre-violation position
(1, 5): the displacement is recomputed with the flipped velocity, not
cancelled. -/
theorem c4_counterexample :
    boundsCheckGame
        (Pong.ballProposed ⟨⟨1, 5⟩, ⟨-2, 0⟩⟩ 1) 20 20 =
        some BoundsCollision.left ∧
      (Pong.ballBlock ⟨⟨1, 5⟩, ⟨-2, 0⟩⟩ ⟨⟨5, 2⟩, 5⟩ ⟨⟨5, 15⟩, 5⟩
          1 20 20).1.position = ⟨3, 5⟩ ∧
      (⟨3, 5⟩ : Point) ≠ ⟨1, 5⟩ := by
  refine ⟨?_, ?_, ?_⟩
  · norm_num [Pong.ballProposed, boundsCheckGame, boundsCheckScreen,
      gameToScreen, rustRound, Rat.floor]
  · norm_num [Pong.ballBlock, Pong.ballProposed, boundsCheckGame,
      boundsCheckScreen, gameToScreen, rustRound, Rat.floor, Pong.collides,
      Line.intersects, Line.intersectsKernel, Point.sub, fEPSILON,
      Pong.VELOCITY_X_SCALE, Pong.VELOCITY_Y_SCALE]
  · norm_num [Point.mk.injEq]

/-- C4 amended: in a frame whose proposed ball position violates the left or
right bound, and absent a same-frame plank collision, the x-velocity sign
flips exactly once, the y-velocity is unchanged, and the frame's position is
the pre-violation position advanced by the flipped velocity (the attempted
displacement is cancelled and recomputed, not suppressed). -/
theorem c4_wall_bounce (ball : Pong.Ball) (enemy player : Pong.Plank)
    (dt : ℚ) (w h : ℕ)
    (hb : boundsCheckGame (Pong.ballProposed ball dt) w h =
            some BoundsCollision.left ∨
          boundsCheckGame (Pong.ballProposed ball dt) w h =
            some BoundsCollision.right)
    (hc : Pong.collides
        (if ball.velocity.y < 0 then enemy else player).position
        ((if ball.velocity.y < 0 then enemy else player).length : ℚ)
        ball.position ⟨ball.position.x, (Pong.ballProposed ball dt).y⟩ =
        false) :
    (Pong.ballBlock ball enemy player dt w h).1.velocity =
        ⟨-ball.velocity.x, ball.velocity.y⟩ ∧
      (Pong.ballBlock ball enemy player dt w h).1.position =
        ⟨ball.position.x + -ball.velocity.x * dt,
         ball.position.y + ball.velocity.y * dt⟩ ∧
      (Pong.ballBlock ball enemy player dt w h).2 = none := by
  simp only [Pong.ballBlock]
  rcases hb with hb | hb <;>
    · rw [hb]
      by_cases hy : ball.velocity.y < 0 <;>
        · simp only [hy, if_pos, if_neg, if_true, if_false] at hc ⊢
          simp [hc]

/-- Witness for `c4_wall_bounce` at the `c4_counterexample` input. -/
theorem c4_wall_bounce_witness :
    (Pong.ballBlock ⟨⟨1, 5⟩, ⟨-2, 0⟩⟩ ⟨⟨5, 2⟩, 5⟩ ⟨⟨5, 15⟩, 5⟩
        1 20 20).1.velocity = ⟨2, 0⟩ := by
  have h := c4_wall_bounce ⟨⟨1, 5⟩, ⟨-2, 0⟩⟩ ⟨⟨5, 2⟩, 5⟩ ⟨⟨5, 15⟩, 5⟩
    1 20 20
    (Or.inl (by norm_num [Pong.ballProposed, boundsCheckGame,
      boundsCheckScreen, gameToScreen, rustRound, Rat.floor]))
    (by norm_num [Pong.collides, Line.intersects, Line.intersectsKernel,
      Point.sub, fEPSILON, Pong.ballProposed])
  rw [h.1]
  norm_num

/-- C7: when the proposed ball position breaches the top edge the score is
incremented, when it breaches the bottom edge the score is decremented, and
after either event only the ball is rebuilt (position and velocity); both
planks keep the positions computed by their own movement phases. -/
theorem c7_scoring_resets_only_ball (g : Pong.PongGame)
    (input : Option Pong.Key) (dt : ℚ) (w h : ℕ) (r1 r2 : ℤ)
    (hq : input ≠ some Pong.Key.esc) :
    ((boundsCheckGame (Pong.ballProposed g.ball dt) w h =
        some BoundsCollision.top →
      (Pong.update g input dt w h r1 r2).1.score = g.score + 1) ∧
     (boundsCheckGame (Pong.ballProposed g.ball dt) w h =
        some BoundsCollision.bottom →
      (Pong.update g input dt w h r1 r2).1.score = g.score - 1)) ∧
    ((boundsCheckGame (Pong.ballProposed g.ball dt) w h =
        some BoundsCollision.top ∨
      boundsCheckGame (Pong.ballProposed g.ball dt) w h =
        some BoundsCollision.bottom) →
      (Pong.update g input dt w h r1 r2).1.ball = Pong.Ball.new w h r1 r2 ∧
      (Pong.update g input dt w h r1 r2).1.player =
        Pong.playerPhase g.player input w ∧
      (Pong.update g input dt w h r1 r2).1.enemy =
        Pong.enemyPhase g.enemy g.ball.position.x dt w) := by
  have hoob := ballBlock_oob g.ball
    (Pong.enemyPhase g.enemy g.ball.position.x dt w)
    (Pong.playerPhase g.player input w) dt w h
  refine ⟨⟨?_, ?_⟩, ?_⟩
  · intro hb
    rw [hb] at hoob
    simp only [Pong.update, if_neg hq]
    rw [hoob]
    simp [Pong.resetPositions]
  · intro hb
    rw [hb] at hoob
    simp only [Pong.update, if_neg hq]
    rw [hoob]
    simp [Pong.resetPositions]
  · rintro (hb | hb) <;>
      · rw [hb] at hoob
        simp only [Pong.update, if_neg hq]
        rw [hoob]
        simp [Pong.resetPositions]

/-- Witness for `c7_scoring_resets_only_ball`: a ball heading off the top of
a 20×20 screen increments the score. -/
theorem c7_scoring_witness :
    (Pong.update
        ⟨⟨⟨5, 2⟩, 5⟩, ⟨⟨5, 15⟩, 5⟩, ⟨⟨5, 1⟩, ⟨0, -2⟩⟩, 0⟩
        none 1 20 20 3 4).1.score = 0 + 1 := by
  have h := c7_scoring_resets_only_ball
    ⟨⟨⟨5, 2⟩, 5⟩, ⟨⟨5, 15⟩, 5⟩, ⟨⟨5, 1⟩, ⟨0, -2⟩⟩, 0⟩
    none 1 20 20 3 4 (by decide)
  exact h.1.1 (by norm_num [Pong.ballProposed, boundsCheckGame,
    boundsCheckScreen, gameToScreen, rustRound, Rat.floor])

/-- C2 counterexample: with two events queued (older 'a', newer 'b'),
`read_input` returns 'a' — the oldest — not the most recently received 'b'
the claim prescribes. -/
theorem c2_counterexample :
    (read_input ['a', 'b']).1 = some 'a' ∧
      (read_input_spec_last_wins ['a', 'b']).1 = some 'b' ∧
      (read_input ['a', 'b']).1 ≠ (read_input_spec_last_wins ['a', 'b']).1 := by
  refine ⟨rfl, rfl, ?_⟩
  decide

/-- C2 amended: each frame the loop drains the input queue completely and
keeps only the first-received (oldest) key event, discarding all later
queued events, and passes that single event (or none) to the update. -/
theorem c2_first_event_wins (q : List Char) :
    read_input q = (q.head?, []) := by
  have hdrain : ∀ r : List Char, drainRest r = [] := by
    intro r
    induction r with
    | nil => rfl
    | cons a t ih => simpa [drainRest] using ih
  cases q with
  | nil => rfl
  | cons a t => simp [read_input, try_recv, hdrain]

/-- C9: in the snake's head-growth step, when an accepted direction change
would place the new head endpoint outside the screen bounds, the newly
appended head segment's begin point is placed on the opposite screen edge
(y = 0 after a bottom violation, y = screen height after a top violation,
x = 0 after a left violation, x = the game-space screen width after a right
violation): the snake wraps around the screen. -/
theorem c9_snake_wraps (segs : List Line) (input prev : Snake.Input)
    (dist : ℚ) (w h : ℕ) (hne : input ≠ prev) :
    ((boundsCheckGame ((input.asVec dist).add (Snake.head segs).endp) w h =
        some BoundsCollision.bottom →
      (Snake.head (Snake.growHead segs input dist w h prev)).begin =
        ⟨(Snake.head segs).endp.x, 0⟩) ∧
     (boundsCheckGame ((input.asVec dist).add (Snake.head segs).endp) w h =
        some BoundsCollision.top →
      (Snake.head (Snake.growHead segs input dist w h prev)).begin =
        ⟨(Snake.head segs).endp.x, (h : ℚ)⟩)) ∧
    ((boundsCheckGame ((input.asVec dist).add (Snake.head segs).endp) w h =
        some BoundsCollision.left →
      (Snake.head (Snake.growHead segs input dist w h prev)).begin =
        ⟨0, (Snake.head segs).endp.y⟩) ∧
     (boundsCheckGame ((input.asVec dist).add (Snake.head segs).endp) w h =
        some BoundsCollision.right →
      (Snake.head (Snake.growHead segs input dist w h prev)).begin =
        ⟨(w : ℚ) / 2, (Snake.head segs).endp.y⟩)) := by
  have hlast : ∀ (l : List Line) (a : Line), Snake.head (l ++ [a]) = a := by
    intro l a
    simp [Snake.head]
  refine ⟨⟨?_, ?_⟩, ?_, ?_⟩ <;> intro hb <;>
    · simp only [Snake.growHead]
      rw [if_pos hne, hb, hlast]

/-- Witness for `c9_snake_wraps`: a downward turn whose head endpoint leaves
the bottom of a 20×10 screen wraps the new segment's begin to y = 0. -/
theorem c9_snake_wraps_witness :
    (Snake.head (Snake.growHead [⟨⟨0, 5⟩, ⟨3, 5⟩⟩] ⟨false, true, false, false⟩
        12 20 10 ⟨false, false, false, true⟩)).begin = ⟨3, 0⟩ := by
  have h := c9_snake_wraps [⟨⟨0, 5⟩, ⟨3, 5⟩⟩] ⟨false, true, false, false⟩
    ⟨false, false, false, true⟩ 12 20 10 (by decide)
  have hb := h.1.1 (by norm_num [Snake.Input.asVec, Snake.head, Point.add,
    boundsCheckGame, boundsCheckScreen, gameToScreen, rustRound, Rat.floor])
  simpa [Snake.head] using hb

/-- C5: when a group of consecutive full rows is cleared, the score
increases by 100 per row for a group of 1-3 rows, by 200 per row for a group
of 4 or more when the previous clear was not also a 4+ group, and by 300 per
row when it was (the back-to-back flag); in particular clearing exactly 4
full bottom rows twice in a row scores 200×4 the first time and 300×4 the
second time. -/
theorem c5_tiered_scoring :
    (∀ (c : ℕ) (board : Tetris.Board) (score : ℕ) (flag : Bool),
      Tetris.is_line_ready board (c + 2) = true →
      Tetris.clearLoop (c + 2) board score flag =
        Tetris.clearLoop (c + 1)
          (Tetris.shiftDown board (c + 2) (Tetris.linesInRow board (c + 2)))
          (score +
            (if 4 ≤ Tetris.linesInRow board (c + 2) then
              (if flag then 300 else 200) else 100) *
            Tetris.linesInRow board (c + 2))
          (decide (4 ≤ Tetris.linesInRow board (c + 2)))) ∧
    Tetris.clearLines Tetris.fourBottomRowsBoard 0 false =
      (Tetris.emptyBoard, 200 * 4, true) ∧
    Tetris.clearLines Tetris.fourBottomRowsBoard (200 * 4) true =
      (Tetris.emptyBoard, 200 * 4 + 300 * 4, true) := by
  refine ⟨?_, by decide, by decide⟩
  intro c board score flag h
  simp only [Tetris.clearLoop, h, if_true]
  by_cases h4 : 4 ≤ Tetris.linesInRow board (c + 2) <;>
    by_cases hf : flag <;>
      simp [Tetris.tierScore, h4, hf, ge_iff_le]

/-- Witness for `c5_tiered_scoring` at the four-full-bottom-rows board. -/
theorem c5_tiered_scoring_witness :
    Tetris.clearLoop (17 + 2) Tetris.fourBottomRowsBoard 0 false =
      Tetris.clearLoop (17 + 1)
        (Tetris.shiftDown Tetris.fourBottomRowsBoard (17 + 2)
          (Tetris.linesInRow Tetris.fourBottomRowsBoard (17 + 2)))
        (0 +
          (if 4 ≤ Tetris.linesInRow Tetris.fourBottomRowsBoard (17 + 2) then
            (if false then 300 else 200) else 100) *
          Tetris.linesInRow Tetris.fourBottomRowsBoard (17 + 2))
        (decide (4 ≤ Tetris.linesInRow Tetris.fourBottomRowsBoard (17 + 2))) :=
  c5_tiered_scoring.1 17 Tetris.fourBottomRowsBoard 0 false (by decide)

/-- C1 (code bug): the source hoists `current_action()` out of the
'failures loop, so every trial of a cycle re-tests the starting action.
With actions [move-up 0%, wait(1s) 100%] and countdown zero, the engine
described by the spec would fail the 0%-trial of action 0, then succeed the
100%-trial of action 1 and add 1s to the countdown; the code instead trials
action 0 twice, fails both, and does nothing (countdown stays 0).  The two
runs below evaluate the code's loop and the spec's loop on that input. -/
theorem c1_behavior_engine_bug :
    SpaceInvaders.trialLoop ⟨.move .up 1, 1000000000, 0⟩ 0 2 ⟨3, 3⟩
        ⟨[⟨.move .up 1, 1000000000, 0⟩, ⟨.wait, 1000000000, 100⟩], 0, 0⟩
        [] [] [] ⟨⟨10, 19⟩⟩ 40 20 (fun _ => 1/2) 0 =
      (⟨3, 3⟩,
       ⟨[⟨.move .up 1, 1000000000, 0⟩, ⟨.wait, 1000000000, 100⟩], 0, 0⟩,
       [], 2) ∧
    SpaceInvaders.trialLoopSpec
        [⟨.move .up 1, 1000000000, 0⟩, ⟨.wait, 1000000000, 100⟩] 0 2 0
        ⟨3, 3⟩ 0 [] [] [] ⟨⟨10, 19⟩⟩ 40 20 (fun _ => 1/2) 0 =
      (⟨3, 3⟩, 0, 1000000000, [], 2) := by
  constructor <;>
    norm_num [SpaceInvaders.trialLoop, SpaceInvaders.trialLoopSpec,
      SpaceInvaders.is_success, SpaceInvaders.applyAction,
      SpaceInvaders.EnemyBehavior.next_action]

/-- The per-bullet enemy loop on fresh flags marks exactly the enemies
within radius, reports a hit iff there is one, and scores one per victim. -/
theorem enemyLoop_fresh (bpos : Point) (es : List SpaceInvaders.Enemy) :
    SpaceInvaders.enemyLoop bpos es (List.replicate es.length false) =
      (es.map (fun e => bpos.compare e.position MORE_THAN_HALF_CELL),
       es.any (fun e => bpos.compare e.position MORE_THAN_HALF_CELL),
       es.countP (fun e => bpos.compare e.position MORE_THAN_HALF_CELL) *
         SpaceInvaders.FOR_ENEMY_SCORE) := by
  induction es with
  | nil => rfl
  | cons e es ih =>
    by_cases hc : bpos.compare e.position MORE_THAN_HALF_CELL <;>
      simp [SpaceInvaders.enemyLoop, ih, hc, List.countP_cons,
        SpaceInvaders.FOR_ENEMY_SCORE]

/-- The per-bullet prop loop on fresh flags marks exactly the props within
radius, reports a hit iff there is one, and scores `FOR_PROP_SCORE` per
destroyable victim. -/
theorem propLoop_fresh (bpos : Point) (ps : List SpaceInvaders.Prop') :
    SpaceInvaders.propLoop bpos ps (List.replicate ps.length false) =
      (ps.map (fun p => bpos.compare p.position MORE_THAN_HALF_CELL),
       ps.any (fun p => bpos.compare p.position MORE_THAN_HALF_CELL),
       ps.countP (fun p =>
           bpos.compare p.position MORE_THAN_HALF_CELL && p.destroyable) *
         SpaceInvaders.FOR_PROP_SCORE) := by
  induction ps with
  | nil => rfl
  | cons p ps ih =>
    by_cases hc : bpos.compare p.position MORE_THAN_HALF_CELL <;>
      by_cases hd : p.destroyable <;>
        simp [SpaceInvaders.propLoop, ih, hc, hd, List.countP_cons,
          SpaceInvaders.FOR_PROP_SCORE]

/-- Retaining by the flags produced by a pointwise predicate is filtering
by the predicate's negation. -/
theorem retainUnflagged_map {α : Type} (xs : List α) (pred : α → Bool) :
    SpaceInvaders.retainUnflagged xs (xs.map pred) =
      xs.filter (fun x => !(pred x)) := by
  induction xs with
  | nil => rfl
  | cons x xs ih =>
    simp only [SpaceInvaders.retainUnflagged, List.map_cons,
      List.zip_cons_cons, List.filterMap_cons, List.filter_cons] at ih ⊢
    rw [ih]
    by_cases h : pred x <;> simp [h]

/-- The prop retain of the collision block keeps a prop unless it was
flagged and is destroyable. -/
theorem propRetain_map (ps : List SpaceInvaders.Prop')
    (pred : SpaceInvaders.Prop' → Bool) :
    (ps.zip (ps.map pred)).filterMap
        (fun p => if !p.2 || !p.1.destroyable then some p.1 else none) =
      ps.filter (fun p => !(pred p) || !p.destroyable) := by
  induction ps with
  | nil => rfl
  | cons p ps ih =>
    simp only [List.map_cons, List.zip_cons_cons, List.filterMap_cons,
      List.filter_cons]
    rw [ih]
    by_cases h : pred p <;> by_cases hd : p.destroyable <;> simp [h, hd]

/-- C3 amended: with a single bullet in flight, the collision block removes
the bullet in the same tick as its victims, but the bullet marks EVERY
enemy within the proximity radius (scoring one each) and is additionally
tested against the props, destroying every destroyable prop within radius
as well — more than one victim per bullet is possible. -/
theorem c3_single_bullet_resolution (b : SpaceInvaders.Bullet)
    (enemies : List SpaceInvaders.Enemy) (props : List SpaceInvaders.Prop')
    (score : ℕ) :
    SpaceInvaders.resolveCollisions [b] enemies props score =
      ((if enemies.any
            (fun e => b.position.compare e.position MORE_THAN_HALF_CELL) ||
          props.any
            (fun p => b.position.compare p.position MORE_THAN_HALF_CELL)
        then [] else [b]),
       enemies.filter
         (fun e => !(b.position.compare e.position MORE_THAN_HALF_CELL)),
       props.filter
         (fun p => !(b.position.compare p.position MORE_THAN_HALF_CELL) ||
           !p.destroyable),
       score +
         (enemies.countP
            (fun e => b.position.compare e.position MORE_THAN_HALF_CELL) *
           SpaceInvaders.FOR_ENEMY_SCORE +
          props.countP
            (fun p => b.position.compare p.position MORE_THAN_HALF_CELL &&
              p.destroyable) *
           SpaceInvaders.FOR_PROP_SCORE)) := by
  simp only [SpaceInvaders.resolveCollisions, SpaceInvaders.bulletsLoop,
    enemyLoop_fresh, propLoop_fresh]
  refine Prod.ext ?_ (Prod.ext ?_ (Prod.ext ?_ ?_))
  · show SpaceInvaders.retainUnflagged [b] [_ || _] = _
    by_cases he : enemies.any
        (fun e => b.position.compare e.position MORE_THAN_HALF_CELL) <;>
      by_cases hp : props.any
        (fun p => b.position.compare p.position MORE_THAN_HALF_CELL) <;>
        simp [SpaceInvaders.retainUnflagged, he, hp]
  · exact retainUnflagged_map enemies _
  · exact propRetain_map props _
  · show score + (_ + (_ + 0)) = score + (_ + _)
    omega

/-- C3 counterexample: one bullet at (1/2, 0) lies within the proximity
radius of two enemies (at (0,0) and (1,0)) and of a destroyable prop at
(1/2, 0); the collision block removes BOTH enemies and the prop and scores
twice — the bullet marks three victims in one tick, not at most one. -/
theorem c3_counterexample :
    SpaceInvaders.resolveCollisions
        [⟨.up, ⟨1/2, 0⟩, 1⟩]
        [⟨⟨0, 0⟩, ⟨[], 0, 0⟩⟩, ⟨⟨1, 0⟩, ⟨[], 0, 0⟩⟩]
        [⟨⟨1/2, 0⟩, true⟩] 0 =
      ([], [], [], 2) := by
  norm_num [SpaceInvaders.resolveCollisions, SpaceInvaders.bulletsLoop,
    SpaceInvaders.enemyLoop, SpaceInvaders.propLoop,
    SpaceInvaders.retainUnflagged, Point.compare, MORE_THAN_HALF_CELL,
    SpaceInvaders.FOR_ENEMY_SCORE, SpaceInvaders.FOR_PROP_SCORE, abs_lt]

/-- Reporting game over is deciding a three-way boolean disjunction. -/
theorem gameOverCond (a b c : Bool) :
    (if a || b || c then UpdateEvent.gameOver else UpdateEvent.gameContinue) =
        UpdateEvent.gameOver ↔ (a = true ∨ b = true ∨ c = true) := by
  cases a <;> cases b <;> cases c <;> simp

/-- C10 amended: `update` returns GameOver iff some bullet — at its
position BEFORE this frame's bullet movement, but after the player fired —
is within the half-cell radius of the player's post-movement position, or
the input is 'q', or the enemies collection is empty after the frame's
updates.  (The original claim's "after the frame's updates" is wrong for
the bullet test: the code performs it before the tick block moves the
bullets.) -/
theorem c10_game_over_iff (g : SpaceInvaders.SpaceInvadersGame)
    (input : Option SpaceInvaders.Key) (dt w h : ℕ) (rng : ℕ → ℚ) (ri : ℕ) :
    (SpaceInvaders.update g input dt w h rng ri).2 = UpdateEvent.gameOver ↔
      ((SpaceInvaders.playerPhase g.player g.bullets
          (g.enemies.map (fun e => { e with behavior := e.behavior.delta dt }))
          g.props input (g.from_last_fire + dt) w h).2.1.any
        (fun b =>
          (SpaceInvaders.playerPhase g.player g.bullets
              (g.enemies.map
                (fun e => { e with behavior := e.behavior.delta dt }))
              g.props input (g.from_last_fire + dt) w h).1.position.compare
            b.position MORE_THAN_HALF_CELL) = true ∨
       input = some SpaceInvaders.Key.q ∨
       (SpaceInvaders.update g input dt w h rng ri).1.enemies = []) := by
  simp only [SpaceInvaders.update]
  rw [gameOverCond]
  simp [List.isEmpty_iff]

/-- C10 counterexample: a bullet one cell above the player moves onto the
player during the tick, so after the frame's updates a bullet IS within the
half-cell radius of the player, the input is not 'q' and an enemy remains —
yet the update returns GameContinue, because the code tests the bullets
against the player before moving them.  (The original claim's iff fails in
the right-to-left direction.) -/
theorem c10_counterexample :
    (SpaceInvaders.update
        ⟨0, [⟨.down, ⟨10, 18⟩, 1⟩],
         [⟨⟨3, 3⟩, ⟨[⟨.wait, 0, 100⟩], 1000000000, 0⟩⟩], [], ⟨⟨10, 19⟩⟩, 0, 0⟩
        none 200000000 40 20 (fun _ => 1/2) 0).2 = UpdateEvent.gameContinue ∧
      (SpaceInvaders.update
        ⟨0, [⟨.down, ⟨10, 18⟩, 1⟩],
         [⟨⟨3, 3⟩, ⟨[⟨.wait, 0, 100⟩], 1000000000, 0⟩⟩], [], ⟨⟨10, 19⟩⟩, 0, 0⟩
        none 200000000 40 20 (fun _ => 1/2) 0).1.bullets.any
        (fun b =>
          (SpaceInvaders.update
            ⟨0, [⟨.down, ⟨10, 18⟩, 1⟩],
             [⟨⟨3, 3⟩, ⟨[⟨.wait, 0, 100⟩], 1000000000, 0⟩⟩], [], ⟨⟨10, 19⟩⟩,
             0, 0⟩
            none 200000000 40 20 (fun _ => 1/2) 0).1.player.position.compare
            b.position MORE_THAN_HALF_CELL) = true ∧
      (SpaceInvaders.update
        ⟨0, [⟨.down, ⟨10, 18⟩, 1⟩],
         [⟨⟨3, 3⟩, ⟨[⟨.wait, 0, 100⟩], 1000000000, 0⟩⟩], [], ⟨⟨10, 19⟩⟩, 0, 0⟩
        none 200000000 40 20 (fun _ => 1/2) 0).1.enemies ≠ [] := by
  refine ⟨?_, ?_, ?_⟩ <;>
    norm_num [SpaceInvaders.update, SpaceInvaders.playerPhase,
      SpaceInvaders.enemiesPhase, SpaceInvaders.enemyTurn,
      SpaceInvaders.bulletsPhase, SpaceInvaders.moveBullet,
      SpaceInvaders.resolveCollisions, SpaceInvaders.bulletsLoop,
      SpaceInvaders.enemyLoop, SpaceInvaders.propLoop,
      SpaceInvaders.retainUnflagged, SpaceInvaders.EnemyBehavior.delta,
      Point.compare, MORE_THAN_HALF_CELL, boundsCheckGame, boundsCheckScreen,
      gameToScreen, rustRound, Rat.floor, SpaceInvaders.FOR_ENEMY_SCORE,
      SpaceInvaders.FOR_PROP_SCORE, SpaceInvaders.GAME_UPDATE_INTERVAL,
      abs_lt] <;> simp
